import Mathlib

/-!
Shallow embedding of the lock lifecycle engine of `src/redlock.ts`
(class `RedLock`) together with a model of the single key-value store
endpoint it talks to (the four primitive operations of the store adapter
contract: conditional set `SET key value NX PX ttl`, atomic
compare-delete, atomic compare-expire, plain read).

Times are absolute milliseconds (`Int`), TTLs are milliseconds (`Int`),
`driftFactor` is a rational number (the source uses a JS number, 0.01 by
default).  `Math.floor` on the nonnegative quantities involved is
embedded as floor division of the rational's numerator by its
denominator.  Asynchronous nondeterminism (what the store answers on
each attempt, what `Math.random()` yields, what `Date.now()` reads, when
the protected operation finishes) is passed in explicitly as functions
of the attempt/tick index.
-/

namespace Utilary

/-- `Math.floor` on a rational, as JS computes it on lock TTL products:
floor division of numerator by denominator. -/
def jsFloor (q : ℚ) : Int := Int.fdiv q.num (q.den : Int)

/-- The `Lock` object of `src/types.ts`: resource key, ownership token
(`value`), locally tracked absolute expiry (`validUntil`). -/
structure Lock where
  key : String
  value : String
  validUntil : Int
deriving DecidableEq

/-- The `RedLockOptions` record of `src/types.ts` (the `onError`
observer callback, a function value, is modelled separately where it
matters: the acquire loop counts errors it reports). -/
structure RedLockOptions where
  retryCount : Option Nat := none
  retryDelay : Option Int := none
  retryJitter : Option Int := none
  driftFactor : Option ℚ := none
  automaticExtensionThreshold : Option Int := none

/-- The configuration fields of a constructed `RedLock` instance. -/
structure RedLock where
  retryCount : Nat
  retryDelay : Int
  retryJitter : Int
  driftFactor : ℚ
  automaticExtensionThreshold : Int
deriving DecidableEq

/-- The `RedLock` constructor (src/redlock.ts lines 64-72): each field
defaults with `??` exactly as the source writes it. -/
def RedLock.ofOptions (opts : RedLockOptions) : RedLock where
  retryCount := opts.retryCount.getD 10
  retryDelay := opts.retryDelay.getD 200
  retryJitter := opts.retryJitter.getD 200
  driftFactor := opts.driftFactor.getD (1 / 100)
  automaticExtensionThreshold := opts.automaticExtensionThreshold.getD 100

/-- A stored key's value and absolute expiry (Redis `PX` expiry). -/
structure Entry where
  value : String
  expiresAt : Int
deriving DecidableEq

/-- The single store endpoint: a map from keys to live entries. -/
def Store := String → Option Entry

/-- A read that honours expiry: an entry whose expiry has passed is
absent (Redis lazily treats expired keys as missing). -/
def liveGet (s : Store) (k : String) (now : Int) : Option String :=
  match s k with
  | none => none
  | some e => if now < e.expiresAt then some e.value else none

/-- `SET key value NX PX ttl` (src/redlock.ts line 145): sets only if
the key is absent (or expired); returns the updated store and whether
the reply was the `OK` sentinel. -/
def trySet (s : Store) (k v : String) (ttl now : Int) : Store × Bool :=
  match liveGet s k now with
  | some _ => (s, false)
  | none => (fun k2 => if k2 = k then some ⟨v, now + ttl⟩ else s k2, true)

/-- The atomic compare-delete Lua script of `release`
(src/redlock.ts lines 171-177): delete iff the stored value equals the
expected token; returns 1 (true) iff deleted. -/
def compareDelete (s : Store) (k expected : String) (now : Int) : Store × Bool :=
  match s k with
  | none => (s, false)
  | some e =>
    if now < e.expiresAt then
      if e.value = expected then (fun k2 => if k2 = k then none else s k2, true)
      else (s, false)
    else (s, false)

/-- The atomic compare-expire Lua script of `extend`
(src/redlock.ts lines 200-206): `pexpire` to `ttl` iff the stored value
equals the expected token; returns 1 (true) iff it did. -/
def compareExpire (s : Store) (k expected : String) (ttl now : Int) : Store × Bool :=
  match s k with
  | none => (s, false)
  | some e =>
    if now < e.expiresAt then
      if e.value = expected then
        (fun k2 => if k2 = k then some ⟨e.value, now + ttl⟩ else s k2, true)
      else (s, false)
    else (s, false)

/-- `release(lock)` (src/redlock.ts lines 170-188): run the
compare-delete script; a transport failure is reported to the observer
and yields `false` (never thrown).  `transportOk` says whether the
store call itself succeeded. -/
def RedLock.release (s : Store) (lock : Lock) (now : Int) (transportOk : Bool) :
    Store × Bool :=
  if transportOk then compareDelete s lock.key lock.value now else (s, false)

/-- `extend(lock, ttl)` (src/redlock.ts lines 199-221): run the
compare-expire script; on result 1 mutate
`lock.validUntil = Date.now() + ttl - Math.floor(ttl * driftFactor) - 2`
in place and return true; on result 0 or transport failure return false
and leave the lock unchanged.  Returns (store, result, lock after the
call). -/
def RedLock.extend (rl : RedLock) (s : Store) (lock : Lock) (ttl now : Int)
    (transportOk : Bool) : Store × Bool × Lock :=
  if transportOk then
    let r := compareExpire s lock.key lock.value ttl now
    if r.2 then
      (r.1, true,
        { lock with validUntil := now + ttl - jsFloor ((ttl : ℚ) * rl.driftFactor) - 2 })
    else (r.1, false, lock)
  else (s, false, lock)

/-- What one `client.set(key, value, \x7bNX, PX\x7d)` call inside the
acquire loop came back with: the `OK` sentinel, a non-`OK` reply
(contended), or a thrown transport error. -/
inductive SetOutcome
  | ok
  | notOk
  | err
deriving DecidableEq

/-- Observable events of one run of the acquire loop: conditional-set
attempts made, the sleeps performed (their durations, in order), and
errors reported to the `onError` observer. -/
structure AcqTrace where
  attempts : Nat
  sleeps : List Int
  errorsReported : Nat
deriving DecidableEq

/-- The body of the `for (attempt = 0; attempt <= retryCount; ...)` loop
of `acquire` (src/redlock.ts lines 143-158), one constructor case per
outcome of the conditional set:
`ok` → build the lock with drift-compensated `validUntil` and return;
`notOk` → sleep `retryDelay + Math.floor(random * retryJitter)` and
continue; thrown error → report to the observer and continue (the catch
block skips the sleep).  `i` is the attempt index, the fuel is the
number of loop iterations left (`retryCount + 1` at entry). -/
def acquireAux (rl : RedLock) (key value : String) (ttl : Int) (time : Nat → Int)
    (rand : Nat → ℚ) (out : Nat → SetOutcome) :
    Nat → Nat → AcqTrace → Option Lock × AcqTrace
  | _, 0, tr => (none, tr)
  | i, fuel + 1, tr =>
    match out i with
    | .ok =>
      (some { key := key, value := value,
              validUntil := time i + ttl - (jsFloor ((ttl : ℚ) * rl.driftFactor) + 2) },
       { tr with attempts := tr.attempts + 1 })
    | .notOk =>
      acquireAux rl key value ttl time rand out (i + 1) fuel
        { tr with attempts := tr.attempts + 1,
                  sleeps := tr.sleeps ++ [rl.retryDelay + jsFloor (rand i * (rl.retryJitter : ℚ))] }
    | .err =>
      acquireAux rl key value ttl time rand out (i + 1) fuel
        { tr with attempts := tr.attempts + 1,
                  errorsReported := tr.errorsReported + 1 }

/-- `acquire(key, ttl)` (src/redlock.ts lines 140-160): the retry loop
runs at most `retryCount + 1` iterations and returns the lock of the
first `OK` reply, else `null`.  `time i` is `Date.now()` at attempt `i`,
`rand i` the `Math.random()` draw used for the jitter after attempt `i`,
`out i` what the store call at attempt `i` came back with. -/
def RedLock.acquire (rl : RedLock) (key value : String) (ttl : Int) (time : Nat → Int)
    (rand : Nat → ℚ) (out : Nat → SetOutcome) : Option Lock × AcqTrace :=
  acquireAux rl key value ttl time rand out 0 (rl.retryCount + 1)
    { attempts := 0, sleeps := [], errorsReported := 0 }

/-- `acquire` run by a second client against a store `s` that no one
else mutates during the run: the outcome of attempt `i` is exactly what
`trySet` answers on `s` at `time i`. -/
def acquireOnStore (rl : RedLock) (s : Store) (key value : String) (ttl : Int)
    (time : Nat → Int) : Option Lock × AcqTrace :=
  RedLock.acquire rl key value ttl time (fun _ => 0)
    (fun i => if (trySet s key value ttl (time i)).2 then .ok else .notOk)

/-- How the protected operation itself finishes: resolves with a value
or rejects with its own error. -/
inductive OpOutcome (α : Type)
  | ok (a : α)
  | err (e : String)
deriving DecidableEq

/-- What the promise built by `withTimeout` settles with. -/
inductive RaceOut (α : Type)
  | opOk (a : α)
  | opErr (e : String)
  | timedOut (budget : Int)
deriving DecidableEq

/-- One run of the `withTimeout` race: what settled the promise, whether
`clearTimeout` ran, and whether the operation was cancelled (the source
has no cancellation mechanism at all, so this is false on both
branches). -/
structure RaceRun (α : Type) where
  outcome : RaceOut α
  timerCancelled : Bool
  opCancelled : Bool
deriving DecidableEq

/-- `withTimeout(fn, timeoutMs)` (src/redlock.ts lines 357-374): the
timer is armed for `timeoutMs`; `fn` settles after `opTime`.  If the
operation settles first its result or error propagates unchanged and the
timer is cleared; otherwise the promise rejects with
`RedLockTimeoutError` carrying `timeoutMs`, and nothing cancels the
still-running operation. -/
def withTimeout (timeoutMs opTime : Int) (op : OpOutcome α) : RaceRun α :=
  if opTime < timeoutMs then
    { outcome := match op with | .ok a => .opOk a | .err e => .opErr e
      timerCancelled := true
      opCancelled := false }
  else
    { outcome := .timedOut timeoutMs
      timerCancelled := false
      opCancelled := false }

/-- How the guarded body of a high-level entry point finishes: the
operation's value or error, the timeout error of the race wrapper
(`lock` only), or an extension error of the renewal loop
(`autoExtendLock` only). -/
inductive BodyOutcome (α : Type)
  | ok (a : α)
  | opErr (e : String)
  | timeoutErr (budget : Int)
  | extendErr (msg : String)
deriving DecidableEq

/-- What a high-level entry point call settles with. -/
inductive LockResult (α : Type)
  | ok (a : α)
  | acquisitionFailed
  | opErr (e : String)
  | timeoutErr (budget : Int)
  | extendErr (msg : String)
deriving DecidableEq

/-- Result of one run of a high-level entry point: the settled value,
the store afterwards, and how many times `release` was invoked. -/
structure RunResult (α : Type) where
  result : LockResult α
  store : Store
  releaseCalls : Nat

/-- `lock(key, ttl, fn)` (src/redlock.ts lines 388-397): if `acquire`
returned null, throw without running the body; otherwise run the body
(`withTimeout(fn, ttl)()`, whose settlement is `body`) inside
`try ... finally \x7b await this.release(lock) \x7d`, so `release` runs
exactly once whatever the body settled with, and the body's settlement
propagates unchanged. -/
def RedLock.lockRun (s : Store) (acq : Option Lock) (body : BodyOutcome α)
    (now : Int) : RunResult α :=
  match acq with
  | none => { result := .acquisitionFailed, store := s, releaseCalls := 0 }
  | some lk =>
    let rel := RedLock.release s lk now true
    { result :=
        match body with
        | .ok a => .ok a
        | .opErr e => .opErr e
        | .timeoutErr b => .timeoutErr b
        | .extendErr m => .extendErr m
      store := rel.1
      releaseCalls := 1 }

/-- `autoExtendLock(key, ttl, fn, options)` (src/redlock.ts lines
329-348): if `acquire` returned null, throw without running the body;
otherwise run `scheduleExtend` (whose settlement is `body`) inside
`try ... finally \x7b isReleased.value = true; await this.release(lock) \x7d`.
The extra `Bool` records the final `isReleased` flag. -/
def RedLock.autoExtendRun (s : Store) (acq : Option Lock) (body : BodyOutcome α)
    (now : Int) : RunResult α × Bool :=
  match acq with
  | none => ({ result := .acquisitionFailed, store := s, releaseCalls := 0 }, false)
  | some lk =>
    let rel := RedLock.release s lk now true
    ({ result :=
         match body with
         | .ok a => .ok a
         | .opErr e => .opErr e
         | .timeoutErr b => .timeoutErr b
         | .extendErr m => .extendErr m
       store := rel.1
       releaseCalls := 1 }, true)

/-- The `maxExtensions !== undefined && maxExtensions >= 0 &&
extensionCount >= maxExtensions` guard of `scheduleExtend`
(src/redlock.ts lines 252-256). -/
def budgetExhausted (maxExtensions : Option Int) (count : Nat) : Bool :=
  match maxExtensions with
  | none => false
  | some m => decide (0 ≤ m) && decide (m ≤ (count : Int))

/-- How the renewal loop of `scheduleExtend` terminates:
`opDone` — a tick saw `isReleased` already set and resolved silently;
`reachedMax` — rejected with the reached-maximum `RedLockExtendError`;
`extendFailedErr` — rejected because `this.extend` returned false or
threw; `pending` — the loop is still rescheduling after the modelled
number of ticks. -/
inductive RenewOutcome
  | opDone
  | reachedMax
  | extendFailedErr
  | pending
deriving DecidableEq

/-- Renewal-loop state: the lock's locally tracked `validUntil`, the
`extensionCount` counter, and how many times `this.extend` was invoked
on the store (success or failure). -/
structure RenewState where
  validUntil : Int
  count : Nat
  storeExtends : Nat
deriving DecidableEq

/-- One run of the renewal loop. -/
structure RenewRun where
  outcome : RenewOutcome
  state : RenewState
deriving DecidableEq

/-- The recursive `extend` tick of `scheduleExtend` (src/redlock.ts
lines 245-294).  At tick `j`: if `isReleased` is set (`released j`),
resolve silently.  Else compute `timeLeft = validUntil - Date.now()`;
if `timeLeft < threshold`: reject with the reached-maximum error when
the budget guard fires, otherwise invoke `this.extend` — on success
(`extendOk j`) update `validUntil` by the drift formula, increment the
counter and reschedule; on failure reject with a Failed-to-extend error.
If `timeLeft >= threshold`, just reschedule.  Fuel bounds the number of
ticks modelled. -/
def renewTick (rl : RedLock) (ttl threshold : Int) (maxExtensions : Option Int)
    (released : Nat → Bool) (time : Nat → Int) (extendOk : Nat → Bool) :
    Nat → Nat → RenewState → RenewRun
  | _, 0, st => ⟨.pending, st⟩
  | j, fuel + 1, st =>
    if released j then ⟨.opDone, st⟩
    else if st.validUntil - time j < threshold then
      if budgetExhausted maxExtensions st.count then ⟨.reachedMax, st⟩
      else if extendOk j then
        renewTick rl ttl threshold maxExtensions released time extendOk (j + 1) fuel
          { validUntil := time j + ttl - jsFloor ((ttl : ℚ) * rl.driftFactor) - 2
            count := st.count + 1
            storeExtends := st.storeExtends + 1 }
      else ⟨.extendFailedErr, { st with storeExtends := st.storeExtends + 1 }⟩
    else
      renewTick rl ttl threshold maxExtensions released time extendOk (j + 1) fuel st

/-- An engine constructed with no explicit options,
`new RedLock(client)`. -/
def defaultEngine : RedLock := RedLock.ofOptions {}

/-- An engine constructed with `retryCount: 0` (the fail-fast engine of
the repository's own tests). -/
def failFastEngine : RedLock := RedLock.ofOptions { retryCount := some 0 }

/-- A store in which resource `r` is currently held by token `tok1`
with absolute expiry 100. -/
def heldStore : Store :=
  fun k => if k = "r" then some ⟨"tok1", 100⟩ else none

end Utilary

namespace Utilary

/-- If no attempt ever comes back `OK`, the acquire loop returns null
whatever the fuel, start index and trace so far. -/
theorem acquireAux_none_of_no_ok (rl : RedLock) (k v : String) (ttl : Int)
    (time : Nat → Int) (rand : Nat → ℚ) (out : Nat → SetOutcome)
    (h : ∀ j, out j ≠ SetOutcome.ok) :
    ∀ fuel i tr, (acquireAux rl k v ttl time rand out i fuel tr).1 = none := by
  intro fuel
  induction fuel with
  | zero => intro i tr; rfl
  | succ n ih =>
    intro i tr
    cases hj : out i with
    | ok => exact absurd hj (h i)
    | notOk =>
      simp only [acquireAux, hj]
      exact ih _ _
    | err =>
      simp only [acquireAux, hj]
      exact ih _ _

/-- C1: mutual exclusion over the single store endpoint.  While
resource `k` is held by token `v1` with store expiry `E` and neither
released nor expired, a concurrent `acquire` of `k` with a different
token `v2` — every one of whose conditional-set attempts happens before
`E` — returns null; once the TTL elapses (`E ≤ t`) or the holder
releases (compare-delete with `v1` succeeds), a conditional set by `v2`
succeeds again. -/
theorem c1_mutual_exclusion (rl : RedLock) (s : Store) (k v1 v2 : String)
    (E ttl : Int) (time : Nat → Int)
    (hheld : s k = some ⟨v1, E⟩) (_hdiff : v2 ≠ v1)
    (hwin : ∀ i, time i < E) :
    (acquireOnStore rl s k v2 ttl time).1 = none
    ∧ (∀ t, E ≤ t → (trySet s k v2 ttl t).2 = true)
    ∧ (∀ t t2, t < E →
        (compareDelete s k v1 t).2 = true
        ∧ (trySet (compareDelete s k v1 t).1 k v2 ttl t2).2 = true) := by
  refine ⟨?_, ?_, ?_⟩
  · unfold acquireOnStore RedLock.acquire
    apply acquireAux_none_of_no_ok
    intro j
    have hfail : (trySet s k v2 ttl (time j)).2 = false := by
      unfold trySet liveGet
      rw [hheld]
      simp [hwin j]
    simp [hfail]
  · intro t ht
    unfold trySet liveGet
    rw [hheld]
    have hnot : ¬ t < E := by omega
    simp [hnot]
  · intro t t2 hlt
    have hdel : compareDelete s k v1 t
        = (fun k2 => if k2 = k then none else s k2, true) := by
      unfold compareDelete
      rw [hheld]
      simp [hlt]
    refine ⟨by rw [hdel], ?_⟩
    rw [hdel]
    unfold trySet liveGet
    simp

/-- Witness for C1 at a concrete held store: the contending `acquire`
returns null while the lease is live, a conditional set succeeds after
the expiry, and release-then-set succeeds. -/
theorem c1_witness :
    (acquireOnStore defaultEngine heldStore "r" "tok2" 50 (fun _ => 40)).1 = none
    ∧ (trySet heldStore "r" "tok2" 50 150).2 = true
    ∧ (compareDelete heldStore "r" "tok1" 40).2 = true
    ∧ (trySet (compareDelete heldStore "r" "tok1" 40).1 "r" "tok2" 50 41).2 = true := by
  have h := c1_mutual_exclusion defaultEngine heldStore "r" "tok1" "tok2" 100 50
    (fun _ => 40) (by simp [heldStore]) (by decide) (fun i => by norm_num)
  exact ⟨h.1, h.2.1 150 (by norm_num), (h.2.2 40 41 (by norm_num)).1,
    (h.2.2 40 41 (by norm_num)).2⟩

/-- C2: in both high-level entry points, whenever acquisition succeeded,
`release` is invoked exactly once on every exit path — operation
success, operation error, timeout error and extension error alike — by
the guaranteed-cleanup (`finally`) block, the body's settlement
propagates unchanged, and `autoExtendLock` additionally sets the
`isReleased` flag before releasing.  When acquisition failed the body
never ran and `release` is not invoked. -/
theorem c2_release_on_every_exit {α : Type} (s : Store) (l : Lock)
    (body : BodyOutcome α) (now : Int) :
    (RedLock.lockRun s (some l) body now).releaseCalls = 1
    ∧ (RedLock.autoExtendRun s (some l) body now).1.releaseCalls = 1
    ∧ (RedLock.autoExtendRun s (some l) body now).2 = true
    ∧ (RedLock.lockRun s (some l) body now).result
        = (match body with
           | .ok a => .ok a
           | .opErr e => .opErr e
           | .timeoutErr b => .timeoutErr b
           | .extendErr m => .extendErr m)
    ∧ (RedLock.lockRun s (none : Option Lock) body now).releaseCalls = 0 := by
  exact ⟨rfl, rfl, rfl, rfl, rfl⟩

/-- C3: a successful conditional set at attempt 0 yields a lock whose
`validUntil` is `now + ttl - (floor(ttl * driftFactor) + 2)`; with
`ttl = 1000` and `driftFactor = 0.01` that is `now + 988`; and a
successful `extend` recomputes the field by the same formula. -/
theorem c3_drift_formula (rl : RedLock) (k v : String) (ttl : Int)
    (time : Nat → Int) (rand : Nat → ℚ) (out : Nat → SetOutcome)
    (s : Store) (lk : Lock) (now : Int)
    (hok : out 0 = SetOutcome.ok) :
    (RedLock.acquire rl k v ttl time rand out).1
      = some ⟨k, v, time 0 + ttl - (jsFloor ((ttl : ℚ) * rl.driftFactor) + 2)⟩
    ∧ (rl.driftFactor = 1 / 100 → ttl = 1000 →
        (RedLock.acquire rl k v ttl time rand out).1
          = some ⟨k, v, time 0 + 988⟩)
    ∧ ((RedLock.extend rl s lk ttl now true).2.1 = true →
        (RedLock.extend rl s lk ttl now true).2.2.validUntil
          = now + ttl - (jsFloor ((ttl : ℚ) * rl.driftFactor) + 2)) := by
  have hacq : (RedLock.acquire rl k v ttl time rand out).1
      = some ⟨k, v, time 0 + ttl - (jsFloor ((ttl : ℚ) * rl.driftFactor) + 2)⟩ := by
    unfold RedLock.acquire
    simp only [acquireAux, hok]
  refine ⟨hacq, ?_, ?_⟩
  · intro hdf httl
    rw [hacq, httl, hdf]
    have hten : jsFloor ((((1000 : Int) : ℚ)) * (1 / 100)) = 10 := by
      norm_num [jsFloor]
    rw [hten]
    norm_num
    omega
  · intro hext
    by_cases hc : (compareExpire s lk.key lk.value ttl now).2
    · simp only [RedLock.extend, if_true, hc, if_pos]
      ring
    · exfalso
      simp only [RedLock.extend, if_true, hc] at hext
      simp at hext

/-- Witness for C3: a default engine acquiring with `ttl = 1000` at
`now = 5000` gets `validUntil = 5988`, and a successful extend on the
held store recomputes the expiry by the same formula. -/
theorem c3_witness :
    (RedLock.acquire defaultEngine "k" "v" 1000 (fun _ => 5000) (fun _ => 0)
        (fun _ => SetOutcome.ok)).1 = some ⟨"k", "v", 5988⟩
    ∧ (RedLock.extend defaultEngine heldStore ⟨"r", "tok1", 90⟩ 1000 40 true).2.2.validUntil
        = 40 + 1000 - (jsFloor ((1000 : ℚ) * defaultEngine.driftFactor) + 2) := by
  have h := c3_drift_formula defaultEngine "k" "v" 1000 (fun _ => 5000) (fun _ => 0)
    (fun _ => SetOutcome.ok) heldStore ⟨"r", "tok1", 90⟩ 40 rfl
  refine ⟨?_, ?_⟩
  · have h2 := h.2.1 rfl rfl
    rw [h2]
    norm_num
  · exact h.2.2 (by simp [RedLock.extend, compareExpire, heldStore])

/-- C4: `extend` returns true exactly when the store call went through
and the atomic compare-extend succeeded; whenever it returns false
(compare failed or transport error) the lock — in particular its
`validUntil` — is left unchanged; and on true `validUntil` is mutated in
place to the drift-compensated expiry.  The embedding returns a boolean
on every path, mirroring that the source catches every error and never
throws. -/
theorem c4_extend_semantics (rl : RedLock) (s : Store) (lk : Lock)
    (ttl now : Int) (tok : Bool) :
    ((RedLock.extend rl s lk ttl now tok).2.1 = true
      ↔ (tok = true ∧ (compareExpire s lk.key lk.value ttl now).2 = true))
    ∧ ((RedLock.extend rl s lk ttl now tok).2.1 = false →
        (RedLock.extend rl s lk ttl now tok).2.2 = lk)
    ∧ ((RedLock.extend rl s lk ttl now tok).2.1 = true →
        (RedLock.extend rl s lk ttl now tok).2.2.validUntil
          = now + ttl - jsFloor ((ttl : ℚ) * rl.driftFactor) - 2) := by
  cases tok with
  | false => simp [RedLock.extend]
  | true =>
    by_cases hc : (compareExpire s lk.key lk.value ttl now).2
    · simp [RedLock.extend, hc]
    · simp [RedLock.extend, hc]

/-- Witness for C4: on the held store, extending with the wrong token
returns false and leaves the lock untouched; extending with the owning
token returns true and rewrites `validUntil` to `40 + 1000 - 10 - 2`. -/
theorem c4_witness :
    (RedLock.extend defaultEngine heldStore ⟨"r", "bad", 90⟩ 1000 40 true).2.1 = false
    ∧ (RedLock.extend defaultEngine heldStore ⟨"r", "bad", 90⟩ 1000 40 true).2.2
        = ⟨"r", "bad", 90⟩
    ∧ (RedLock.extend defaultEngine heldStore ⟨"r", "tok1", 90⟩ 1000 40 true).2.1 = true
    ∧ (RedLock.extend defaultEngine heldStore ⟨"r", "tok1", 90⟩ 1000 40 true).2.2.validUntil
        = 40 + 1000 - jsFloor ((1000 : ℚ) * defaultEngine.driftFactor) - 2 := by
  have hbad : (RedLock.extend defaultEngine heldStore ⟨"r", "bad", 90⟩ 1000 40 true).2.1
      = false := by
    simp [RedLock.extend, compareExpire, heldStore]
  have hgood := (c4_extend_semantics defaultEngine heldStore ⟨"r", "tok1", 90⟩ 1000 40 true).1.mpr
    ⟨rfl, by simp [compareExpire, heldStore]⟩
  refine ⟨hbad, ?_, hgood, ?_⟩
  · exact (c4_extend_semantics defaultEngine heldStore ⟨"r", "bad", 90⟩ 1000 40 true).2.1 hbad
  · have := (c4_extend_semantics defaultEngine heldStore ⟨"r", "tok1", 90⟩ 1000 40 true).2.2 hgood
    rw [this]
    norm_num

/-- C5: in the timeout race wrapper, if the operation settles strictly
before the deadline its result or error propagates unchanged and the
timer is cleared; if the timer fires first the race rejects with the
timeout error carrying the configured timeout value; and on no path is
the operation cancelled (the source has no cancellation mechanism). -/
theorem c5_timeout_race {α : Type} (timeoutMs opTime : Int) (op : OpOutcome α) :
    (opTime < timeoutMs →
        (withTimeout timeoutMs opTime op).outcome
          = (match op with | .ok a => .opOk a | .err e => .opErr e)
        ∧ (withTimeout timeoutMs opTime op).timerCancelled = true)
    ∧ (timeoutMs ≤ opTime →
        (withTimeout timeoutMs opTime op).outcome = .timedOut timeoutMs
        ∧ (withTimeout timeoutMs opTime op).timerCancelled = false)
    ∧ (withTimeout timeoutMs opTime op).opCancelled = false := by
  by_cases h : opTime < timeoutMs
  · refine ⟨fun _ => ⟨?_, ?_⟩, fun hle => absurd h (by omega), ?_⟩ <;>
      simp [withTimeout, h]
  · refine ⟨fun hlt => absurd hlt h, fun _ => ⟨?_, ?_⟩, ?_⟩ <;>
      simp [withTimeout, h]

/-- Witness for C5: an operation resolving 7 at 500 ms under a 1000 ms
budget wins the race with the timer cleared; one still running at the
1000 ms deadline loses to the timeout error carrying 1000. -/
theorem c5_witness :
    (withTimeout 1000 500 (OpOutcome.ok (7 : Nat))).outcome = RaceOut.opOk 7
    ∧ (withTimeout 1000 500 (OpOutcome.ok (7 : Nat))).timerCancelled = true
    ∧ (withTimeout 1000 2000 (OpOutcome.ok (7 : Nat))).outcome = RaceOut.timedOut 1000
    ∧ (withTimeout 1000 2000 (OpOutcome.ok (7 : Nat))).opCancelled = false := by
  have hwin := c5_timeout_race 1000 500 (OpOutcome.ok (7 : Nat))
  have hlose := c5_timeout_race 1000 2000 (OpOutcome.ok (7 : Nat))
  exact ⟨(hwin.1 (by norm_num)).1, (hwin.1 (by norm_num)).2,
    (hlose.2.1 (by norm_num)).1, hlose.2.2⟩

/-- C6 counterexample: with `maxExtensions = 0`, an operation that is
still running (`released` never set) when remaining validity drops below
the threshold makes the renewal loop reject with the reached-maximum
extension error — refuting that no extension error is thrown regardless
of the operation's duration. -/
theorem c6_counterexample :
    (renewTick defaultEngine 1000 500 (some 0) (fun _ => false) (fun _ => 10000)
        (fun _ => true) 0 5 ⟨10100, 0, 0⟩).outcome = RenewOutcome.reachedMax
    ∧ (renewTick defaultEngine 1000 500 (some 0) (fun _ => false) (fun _ => 10000)
        (fun _ => true) 0 5 ⟨10100, 0, 0⟩).state.storeExtends = 0 := by
  constructor <;> simp [renewTick, budgetExhausted]

/-- C6 amended: with `maxExtensions = 0` the renewal loop never invokes
`extend` on the store and never produces a failed-extension error (so no
extension is ever attempted); but instead of silently letting the lease
lapse, any tick that finds the operation unfinished with remaining
validity below the threshold rejects with the reached-maximum extension
error, and a reached-maximum outcome only arises from such a tick. -/
theorem c6_zero_max_extensions (rl : RedLock) (ttl threshold : Int)
    (released : Nat → Bool) (time : Nat → Int) (extendOk : Nat → Bool)
    (j fuel : Nat) (st : RenewState) :
    (renewTick rl ttl threshold (some 0) released time extendOk j fuel st).state.storeExtends
      = st.storeExtends
    ∧ (renewTick rl ttl threshold (some 0) released time extendOk j fuel st).outcome
        ≠ RenewOutcome.extendFailedErr
    ∧ ((renewTick rl ttl threshold (some 0) released time extendOk j fuel st).outcome
        = RenewOutcome.reachedMax →
        ∃ i, released i = false ∧ st.validUntil - time i < threshold)
    ∧ (released j = false → st.validUntil - time j < threshold →
        (renewTick rl ttl threshold (some 0) released time extendOk j (fuel + 1) st).outcome
          = RenewOutcome.reachedMax) := by
  have hbudget : ∀ c : Nat, budgetExhausted (some 0) c = true := by
    intro c
    simp [budgetExhausted]
  have main : ∀ fuel2 j2,
      (renewTick rl ttl threshold (some 0) released time extendOk j2 fuel2 st).state.storeExtends
        = st.storeExtends
      ∧ (renewTick rl ttl threshold (some 0) released time extendOk j2 fuel2 st).outcome
          ≠ RenewOutcome.extendFailedErr
      ∧ ((renewTick rl ttl threshold (some 0) released time extendOk j2 fuel2 st).outcome
          = RenewOutcome.reachedMax →
          ∃ i, released i = false ∧ st.validUntil - time i < threshold) := by
    intro fuel2
    induction fuel2 with
    | zero =>
      intro j2
      exact ⟨rfl, by simp [renewTick], by simp [renewTick]⟩
    | succ n ih =>
      intro j2
      by_cases hr : released j2
      · simp [renewTick, hr]
      · by_cases hleft : st.validUntil - time j2 < threshold
        · refine ⟨?_, ?_, ?_⟩ <;>
            simp [renewTick, hr, hleft, hbudget]
          exact ⟨j2, by simpa using hr, hleft⟩
        · refine ⟨?_, ?_, ?_⟩ <;>
            simp only [renewTick, hr, hleft, if_false, if_neg, Bool.false_eq_true,
              not_false_eq_true]
          · exact (ih (j2 + 1)).1
          · exact (ih (j2 + 1)).2.1
          · exact (ih (j2 + 1)).2.2
  refine ⟨(main fuel j).1, (main fuel j).2.1, (main fuel j).2.2, ?_⟩
  intro hr hleft
  simp [renewTick, hr, hleft, hbudget]

/-- Witness for C6 amended: a concrete run with `maxExtensions = 0`
performs no store extension, does not fail with a failed-extension
error, and the tick below threshold rejects with reached-maximum. -/
theorem c6_witness :
    (renewTick defaultEngine 1000 500 (some 0) (fun _ => false) (fun _ => 10000)
        (fun _ => true) 0 3 ⟨10100, 0, 0⟩).state.storeExtends = 0
    ∧ (renewTick defaultEngine 1000 500 (some 0) (fun _ => false) (fun _ => 10000)
        (fun _ => true) 0 3 ⟨10100, 0, 0⟩).outcome ≠ RenewOutcome.extendFailedErr
    ∧ (renewTick defaultEngine 1000 500 (some 0) (fun _ => false) (fun _ => 10000)
        (fun _ => true) 0 (3 + 1) ⟨10100, 0, 0⟩).outcome = RenewOutcome.reachedMax := by
  have h := c6_zero_max_extensions defaultEngine 1000 500 (fun _ => false)
    (fun _ => 10000) (fun _ => true) 0 3 ⟨10100, 0, 0⟩
  exact ⟨h.1, h.2.1, h.2.2.2 rfl (by norm_num)⟩

/-- C7 counterexample: an engine with `retryCount = 0` acquiring an
already-held resource (the single conditional set replies non-`OK`)
performs one attempt and returns null — but it does sleep once, for
`retryDelay + floor(random * retryJitter)` (here 200 ms with a zero
random draw), because the jittered delay inside the loop body runs even
on the final iteration.  This refutes the claim's "performs no sleep". -/
theorem c7_counterexample :
    (RedLock.acquire failFastEngine "k" "v" 5000 (fun _ => 0) (fun _ => 0)
        (fun _ => SetOutcome.notOk)).2
      = ⟨1, [200], 0⟩ := by
  simp [RedLock.acquire, acquireAux, failFastEngine, RedLock.ofOptions, jsFloor]

/-- C7 amended: `acquire` with `retryCount = 0` against an already-held
resource performs exactly one conditional-set attempt, does not retry,
returns null — and performs exactly one jittered sleep of
`retryDelay + floor(random * retryJitter)` after the failed attempt
before returning. -/
theorem c7_retry_zero (rl : RedLock) (k v : String) (ttl : Int)
    (time : Nat → Int) (rand : Nat → ℚ) (out : Nat → SetOutcome)
    (hrc : rl.retryCount = 0) (hout : out 0 = SetOutcome.notOk) :
    RedLock.acquire rl k v ttl time rand out
      = (none,
         ⟨1, [rl.retryDelay + jsFloor (rand 0 * (rl.retryJitter : ℚ))], 0⟩) := by
  unfold RedLock.acquire
  rw [hrc]
  simp only [acquireAux, hout]
  simp

/-- Witness for C7 amended, at the fail-fast engine with a zero random
draw: one attempt, one 200 ms sleep, null result. -/
theorem c7_witness :
    RedLock.acquire failFastEngine "k" "v" 5000 (fun _ => 0) (fun _ => 0)
        (fun _ => SetOutcome.notOk)
      = (none, ⟨1, [200], 0⟩) := by
  have h := c7_retry_zero failFastEngine "k" "v" 5000 (fun _ => 0) (fun _ => 0)
    (fun _ => SetOutcome.notOk) rfl rfl
  rw [h]
  norm_num [failFastEngine, RedLock.ofOptions, jsFloor]

/-- C8 counterexample: a run whose single conditional-set attempt raised
a transport error reports the error to the observer but performs no
sleep at all — refuting that the jittered sleep occurs on the
transport-error path as well as the contended path. -/
theorem c8_counterexample :
    (RedLock.acquire failFastEngine "k" "v" 5000 (fun _ => 0) (fun _ => 0)
        (fun _ => SetOutcome.err)).2
      = ⟨1, [], 1⟩ := by
  simp [RedLock.acquire, acquireAux, failFastEngine, RedLock.ofOptions]

/-- C8 amended: on a contended attempt (non-`OK` reply) the loop records
a jittered sleep of `retryDelay + floor(random * retryJitter)` and
continues; on a transport error the loop reports the error to the
observer, swallows it, and continues immediately — the catch block skips
the sleep. -/
theorem c8_retry_paths (rl : RedLock) (k v : String) (ttl : Int)
    (time : Nat → Int) (rand : Nat → ℚ) (out : Nat → SetOutcome)
    (i fuel : Nat) (tr : AcqTrace) :
    (out i = SetOutcome.notOk →
        acquireAux rl k v ttl time rand out i (fuel + 1) tr
          = acquireAux rl k v ttl time rand out (i + 1) fuel
              { tr with attempts := tr.attempts + 1,
                        sleeps := tr.sleeps
                          ++ [rl.retryDelay + jsFloor (rand i * (rl.retryJitter : ℚ))] })
    ∧ (out i = SetOutcome.err →
        acquireAux rl k v ttl time rand out i (fuel + 1) tr
          = acquireAux rl k v ttl time rand out (i + 1) fuel
              { tr with attempts := tr.attempts + 1,
                        errorsReported := tr.errorsReported + 1 }) := by
  constructor <;> intro h <;> simp only [acquireAux, h]

/-- Witness for C8 amended: one erroring iteration consumes no sleep and
reports one error; one contended iteration appends one sleep. -/
theorem c8_witness :
    acquireAux failFastEngine "k" "v" 5000 (fun _ => 0) (fun _ => 0)
        (fun _ => SetOutcome.err) 0 1 ⟨0, [], 0⟩
      = (none, ⟨1, [], 1⟩)
    ∧ acquireAux failFastEngine "k" "v" 5000 (fun _ => 0) (fun _ => 0)
        (fun _ => SetOutcome.notOk) 0 1 ⟨0, [], 0⟩
      = (none, ⟨1, [200], 0⟩) := by
  constructor
  · have h := (c8_retry_paths failFastEngine "k" "v" 5000 (fun _ => 0) (fun _ => 0)
      (fun _ => SetOutcome.err) 0 0 ⟨0, [], 0⟩).2 rfl
    rw [h]
    rfl
  · have h := (c8_retry_paths failFastEngine "k" "v" 5000 (fun _ => 0) (fun _ => 0)
      (fun _ => SetOutcome.notOk) 0 0 ⟨0, [], 0⟩).1 rfl
    rw [h]
    norm_num [acquireAux, failFastEngine, RedLock.ofOptions, jsFloor]

/-- C9: the defaults an engine takes when constructed with no explicit
options.  Four of the five claimed defaults hold; the fifth does not:
the source sets `automaticExtensionThreshold` to 100 ms, while the
claim, the doc comments of `src/types.ts`, and the repository's own
tests all say 500 ms. -/
theorem c9_default_configuration :
    (RedLock.ofOptions {}).retryCount = 10
    ∧ (RedLock.ofOptions {}).retryDelay = 200
    ∧ (RedLock.ofOptions {}).retryJitter = 200
    ∧ (RedLock.ofOptions {}).driftFactor = 1 / 100
    ∧ (RedLock.ofOptions {}).automaticExtensionThreshold = 100
    ∧ (RedLock.ofOptions {}).automaticExtensionThreshold ≠ 500 := by
  refine ⟨rfl, rfl, rfl, rfl, rfl, by norm_num [RedLock.ofOptions]⟩

/-- The budget guard never fires for a negative `maxExtensions`: the
`maxExtensions >= 0` conjunct is false. -/
theorem budgetExhausted_of_neg (m : Int) (hm : m < 0) (c : Nat) :
    budgetExhausted (some m) c = false := by
  have hfalse : decide ((0 : Int) ≤ m) = false := by
    rw [decide_eq_false_iff_not]
    omega
  simp [budgetExhausted, hfalse]

/-- C10: every negative `maxExtensions` value — not only -1 — is an
unlimited extension budget: for any `m < 0` the budget-exhausted guard
is false at every count, so no run of the renewal loop ever rejects with
the reached-maximum error, however many extensions occur. -/
theorem c10_negative_unlimited (rl : RedLock) (ttl threshold : Int) (m : Int)
    (released : Nat → Bool) (time : Nat → Int) (extendOk : Nat → Bool)
    (hm : m < 0) :
    (∀ c : Nat, budgetExhausted (some m) c = false)
    ∧ ∀ fuel j st,
        (renewTick rl ttl threshold (some m) released time extendOk j fuel st).outcome
          ≠ RenewOutcome.reachedMax := by
  refine ⟨fun c => budgetExhausted_of_neg m hm c, ?_⟩
  intro fuel
  induction fuel with
  | zero =>
    intro j st
    simp [renewTick]
  | succ n ih =>
    intro j st
    by_cases hr : released j
    · simp [renewTick, hr]
    · by_cases hleft : st.validUntil - time j < threshold
      · by_cases he : extendOk j
        · simp only [renewTick, hr, hleft, he, budgetExhausted_of_neg m hm,
            Bool.false_eq_true, if_false, if_true, if_pos, if_neg, not_false_eq_true]
          exact ih _ _
        · simp [renewTick, hr, hleft, he, budgetExhausted_of_neg m hm]
      · simp only [renewTick, hr, hleft, Bool.false_eq_true, if_false, if_neg,
          not_false_eq_true]
        exact ih _ _

/-- Witness for C10 at `maxExtensions = -7`: the guard is false and a
concrete still-running run below threshold keeps extending instead of
rejecting with the reached-maximum error. -/
theorem c10_witness :
    budgetExhausted (some (-7)) 1000 = false
    ∧ (renewTick defaultEngine 1000 500 (some (-7)) (fun _ => false)
        (fun _ => 10000) (fun _ => true) 0 3 ⟨10100, 0, 0⟩).outcome
        ≠ RenewOutcome.reachedMax := by
  have h := c10_negative_unlimited defaultEngine 1000 500 (-7) (fun _ => false)
    (fun _ => 10000) (fun _ => true) (by norm_num)
  exact ⟨h.1 1000, h.2 3 0 ⟨10100, 0, 0⟩⟩

end Utilary
